import Mathlib

/-
  Verification development for the streaming knowledge-graph response
  pipeline of this repository (src/tokenCounter.ts and the
  StreamingResponseBuilder in src/config.ts, dispatched from
  src/index.ts).

  Modelling conventions of this shallow embedding:
  * JavaScript values that flow through the pipeline (the content of
    sections, entities, relations, whole responses) are modelled by the
    inductive type Json below.  JS numbers appearing in this code path
    are integers (counts, line numbers), so Json.num carries an Int.
  * JSON.stringify(v, null, 2) and JSON.stringify(v) are modelled by
    stringify2 and stringifyC; JS string escaping is modelled by
    escapeJson.  Strings are assumed to hold scalar characters; lengths
    are counted in characters, matching JS .length on ASCII data.
  * Floating point: the only non-integer arithmetic in the source is
    budget.remaining / 4 (exact in binary floating point, modelled by
    Rat), Math.floor(x * 0.96), Math.floor(x * 4 * 0.8) and
    Math.floor(x * 0.8) whose results on the integer ranges reachable
    here coincide with the exact rational floors used below.
  * Fields that the source sets to undefined are omitted from the
    modelled objects, matching what JSON.stringify and the token
    estimates see.
-/

/-- Model of the JavaScript values handled by the pipeline. -/
inductive Json where
  | null : Json
  | bool (b : Bool) : Json
  | num (n : Int) : Json
  | str (s : String) : Json
  | arr (items : List Json) : Json
  | obj (fields : List (String × Json)) : Json
deriving Repr

/-- The double-quote character, written via its code point. -/
def quoteChar : Char := Char.ofNat 34

/-- The backslash character, written via its code point. -/
def backslashChar : Char := Char.ofNat 92

/-- Lower-case hexadecimal digit for a value below 16. -/
def hexDigit (n : Nat) : Char :=
  if n < 10 then Char.ofNat (48 + n) else Char.ofNat (87 + n)

/-- JSON escaping of one character, as performed by JS JSON.stringify. -/
def escChar (c : Char) : List Char :=
  if c = quoteChar then [backslashChar, quoteChar]
  else if c = backslashChar then [backslashChar, backslashChar]
  else if c = Char.ofNat 8 then [backslashChar, 'b']
  else if c = Char.ofNat 12 then [backslashChar, 'f']
  else if c = Char.ofNat 10 then [backslashChar, 'n']
  else if c = Char.ofNat 13 then [backslashChar, 'r']
  else if c = Char.ofNat 9 then [backslashChar, 't']
  else if c.toNat < 32 then
    [backslashChar, 'u', '0', '0', hexDigit (c.toNat / 16), hexDigit (c.toNat % 16)]
  else [c]

/-- JSON escaping of a whole string. -/
def escapeJson (s : String) : String := String.mk (s.data.flatMap escChar)

/-- A string rendered as a JSON string literal, quotes included. -/
def quoteJson (s : String) : String :=
  String.mk [quoteChar] ++ escapeJson s ++ String.mk [quoteChar]

/-- Indentation used by JSON.stringify(v, null, 2) at nesting depth d. -/
def indentStr (d : Nat) : String := String.mk (List.replicate (2 * d) ' ')

mutual

/-- Model of JSON.stringify(v, null, 2) at nesting depth d. -/
def stringify2 (d : Nat) : Json → String
  | .null => "null"
  | .bool true => "true"
  | .bool false => "false"
  | .num n => toString n
  | .str s => quoteJson s
  | .arr [] => "[]"
  | .arr (x :: xs) =>
      "[\n" ++ stringifyItems (d + 1) (x :: xs) ++ "\n" ++ indentStr d ++ "]"
  | .obj [] => "\x7b\x7d"
  | .obj (e :: es) =>
      "\x7b\n" ++ stringifyFields (d + 1) (e :: es) ++ "\n" ++ indentStr d ++ "\x7d"
termination_by structural j => j

/-- Pretty-printed array elements, comma-newline separated, each indented. -/
def stringifyItems (d : Nat) : List Json → String
  | [] => ""
  | [x] => indentStr d ++ stringify2 d x
  | x :: xs => indentStr d ++ stringify2 d x ++ ",\n" ++ stringifyItems d xs
termination_by structural l => l

/-- Pretty-printed object fields, comma-newline separated, each indented. -/
def stringifyFields (d : Nat) : List (String × Json) → String
  | [] => ""
  | [(k, v)] => indentStr d ++ quoteJson k ++ ": " ++ stringify2 d v
  | (k, v) :: fs => indentStr d ++ quoteJson k ++ ": " ++ stringify2 d v ++ ",\n" ++
      stringifyFields d fs
termination_by structural l => l

end

mutual

/-- Model of compact JSON.stringify(v) with no indentation. -/
def stringifyC : Json → String
  | .null => "null"
  | .bool true => "true"
  | .bool false => "false"
  | .num n => toString n
  | .str s => quoteJson s
  | .arr [] => "[]"
  | .arr (x :: xs) => "[" ++ stringifyCItems (x :: xs) ++ "]"
  | .obj [] => "\x7b\x7d"
  | .obj (e :: es) => "\x7b" ++ stringifyCFields (e :: es) ++ "\x7d"
termination_by structural j => j

/-- Compact array elements, comma separated. -/
def stringifyCItems : List Json → String
  | [] => ""
  | [x] => stringifyC x
  | x :: xs => stringifyC x ++ "," ++ stringifyCItems xs
termination_by structural l => l

/-- Compact object fields, comma separated. -/
def stringifyCFields : List (String × Json) → String
  | [] => ""
  | [(k, v)] => quoteJson k ++ ":" ++ stringifyC v
  | (k, v) :: fs => quoteJson k ++ ":" ++ stringifyC v ++ "," ++ stringifyCFields fs
termination_by structural l => l

end

/-
  TokenCounter (src/tokenCounter.ts).  CHARS_PER_TOKEN = 4 and
  SAFETY_MARGIN = 0.96 are inlined.  Math.ceil(n / 4) on a natural
  number n is (n + 3) / 4 in natural division; Math.floor on the exact
  rationals produced here is modelled by natural or flooring integer
  division.
-/

/-- Model of the TokenBudget record.  The fields are JS integers; remaining
can go negative after an overshooting consumeTokens, hence Int. -/
structure TokenBudget where
  total : Int
  used : Int
  remaining : Int
deriving Repr, DecidableEq

/-- estimateTokens: strings are measured directly, other values are measured
on their compact JSON.stringify serialization; ceil(length / 4). -/
def estimateTokens (content : Json) : Nat :=
  match content with
  | .str s => (s.length + 3) / 4
  | _ => ((stringifyC content).length + 3) / 4

/-- estimateTokensWithFormatting: measures JSON.stringify(content, null, 2). -/
def estimateTokensWithFormatting (content : Json) : Nat :=
  ((stringify2 0 content).length + 3) / 4

/-- createBudget: total = Math.floor(totalLimit * 0.96), used = 0,
remaining = total. -/
def createBudget (totalLimit : Nat) : TokenBudget :=
  let safeLimit : Int := (totalLimit * 96) / 100
  { total := safeLimit, used := 0, remaining := safeLimit }

/-- consumeTokens returns a new budget value with used increased and
remaining decreased by the consumed amount. -/
def consumeTokens (budget : TokenBudget) (tokens : Int) : TokenBudget :=
  { total := budget.total, used := budget.used + tokens,
    remaining := budget.remaining - tokens }

/-- fitsInBudget: the formatted estimate fits the remaining allowance. -/
def fitsInBudget (budget : TokenBudget) (content : Json) : Bool :=
  decide ((estimateTokensWithFormatting content : Int) ≤ budget.remaining)

/-- getMaxContentSize: Math.floor(remaining * 4 * 0.8). -/
def getMaxContentSize (budget : TokenBudget) : Int :=
  Int.fdiv (16 * budget.remaining) 5

/-- JS s.substring(0, n) character prefix (char-list based so that concrete
instances reduce). -/
def strTake (s : String) (n : Nat) : String := String.mk (s.data.take n)

/-- JS s.startsWith(pat). -/
def strStartsWith (s pat : String) : Bool := pat.data.isPrefixOf s.data

/-- JS s.substring(0, n) for an Int n: negative n clamps to 0, n beyond the
length clamps to the length. -/
def jsSubstring0 (s : String) (n : Int) : String := strTake s n.toNat

/-- Loop body of truncateArray: tokenCount is the running estimate total and
started records whether at least one item has been kept (result.length > 0
in the source); the first item is pushed unconditionally. -/
def truncAux (maxTokens : Rat) : List Json → Nat → Bool → List Json × Bool
  | [], _, _ => ([], false)
  | x :: xs, tokenCount, started =>
      let itemTokens := estimateTokensWithFormatting x
      if maxTokens < ((tokenCount + itemTokens : Nat) : Rat) ∧ started = true then
        ([], true)
      else
        let r := truncAux maxTokens xs (tokenCount + itemTokens) true
        (x :: r.1, r.2)

/-- truncateArray: greedily keep a prefix of the array whose running
formatted-estimate total stays within maxTokens, always keeping the first
item; maxTokens is a JS number (budget.remaining / 4 at the call site). -/
def truncateArray (arr : List Json) (maxTokens : Rat) : List Json × Bool :=
  if arr.isEmpty then (arr, false) else truncAux maxTokens arr 0 false

/-- One entry of the truncateObject loop: array values are replaced only when
their truncation reports truncated, strings longer than 500 characters are
cut to 500 plus the marker, other values pass through. -/
def truncateEntry (budget : TokenBudget) (e : String × Json) : (String × Json) × Bool :=
  match e.2 with
  | .arr a =>
      let t := truncateArray a ((budget.remaining : Rat) / 4)
      if t.2 then ((e.1, .arr t.1), true) else (e, false)
  | .str s =>
      if 500 < s.length then ((e.1, .str (strTake s 500 ++ "...[truncated]")), true)
      else (e, false)
  | _ => (e, false)

/-- truncateObject over the entry list of the spread copy of the object. -/
def truncateObject (entries : List (String × Json)) (budget : TokenBudget) :
    Json × Bool :=
  let processed := entries.map (truncateEntry budget)
  (Json.obj (processed.map (fun p => p.1)), processed.any (fun p => p.2))

/-- Object.entries of a JS array: index keys in order, as decimal strings. -/
def arrayEntries (items : List Json) : List (String × Json) :=
  items.enum.map (fun p => (toString p.1, p.2))

/-- truncateToFit: content that fits is returned unchanged; objects and
arrays go through truncateObject (a JS array spread into an object literal
becomes a plain object keyed by indices); strings are hard-cut to
getMaxContentSize characters plus the marker; any other value becomes null. -/
def truncateToFit (content : Json) (budget : TokenBudget) : Json × Bool :=
  if (estimateTokensWithFormatting content : Int) ≤ budget.remaining then
    (content, false)
  else
    match content with
    | .obj es => truncateObject es budget
    | .arr xs => truncateObject (arrayEntries xs) budget
    | .str s => (.str (jsSubstring0 s (getMaxContentSize budget) ++ "...[truncated]"), true)
    | _ => (Json.null, true)

/-
  String helpers used by the StreamingResponseBuilder (modelling the JS
  methods includes, startsWith, replace-with-string-pattern (first
  occurrence only), trim, split, parseInt, and the one regex
  replace(/.*docstring[:\s]*\/, '') on newline-separated ASCII text).
-/

/-- JS whitespace test restricted to the ASCII range of the inputs. -/
def jsIsSpace (c : Char) : Bool :=
  c = ' ' || c = Char.ofNat 9 || c = Char.ofNat 10 || c = Char.ofNat 11 ||
  c = Char.ofNat 12 || c = Char.ofNat 13

/-- Occurrence test for a pattern at any position of a character list. -/
def containsAux (pat : List Char) : List Char → Bool
  | [] => decide (pat = [])
  | c :: cs => pat.isPrefixOf (c :: cs) || containsAux pat cs

/-- JS s.includes(pat). -/
def strContains (s pat : String) : Bool := containsAux pat.data s.data

/-- Index of the first occurrence of pat, if any. -/
def firstMatchIdx (pat : List Char) : List Char → Option Nat
  | [] => if pat = [] then some 0 else none
  | c :: cs =>
      if pat.isPrefixOf (c :: cs) then some 0
      else (firstMatchIdx pat cs).map (fun i => i + 1)

/-- JS s.replace(pat, repl) with a string pattern: first occurrence only. -/
def replaceFirst (s pat repl : String) : String :=
  match firstMatchIdx pat.data s.data with
  | none => s
  | some i => String.mk (s.data.take i ++ repl.data ++ s.data.drop (i + pat.data.length))

/-- JS s.trim() on ASCII data. -/
def jsTrim (s : String) : String :=
  String.mk (((s.data.dropWhile jsIsSpace).reverse.dropWhile jsIsSpace).reverse)

/-- Numeric value of a digit run. -/
def digitsVal (ds : List Char) : Nat := ds.foldl (fun a c => a * 10 + (c.toNat - 48)) 0

/-- Leading decimal digit run, none when the text does not start with a digit. -/
def leadingNat (cs : List Char) : Option Nat :=
  let ds := cs.takeWhile Char.isDigit
  if ds.isEmpty then none else some (digitsVal ds)

/-- JS parseInt in base 10: skip whitespace, optional sign, leading digits,
ignore the rest; none models NaN.  The hexadecimal 0x form is not modelled
(never produced by the observation formats handled here). -/
def jsParseInt (s : String) : Option Int :=
  let cs := s.data.dropWhile jsIsSpace
  match cs with
  | '-' :: rest => (leadingNat rest).map (fun n => -(n : Int))
  | '+' :: rest => (leadingNat rest).map (fun n => (n : Int))
  | _ => (leadingNat cs).map (fun n => (n : Int))

/-- JS s.split(sep) for a one-character separator. -/
def splitOnChar (sep : Char) : List Char → List (List Char)
  | [] => [[]]
  | c :: rest =>
      if c = sep then [] :: splitOnChar sep rest
      else match splitOnChar sep rest with
        | [] => [[c]]
        | l :: ls => (c :: l) :: ls

/-- End position (exclusive) of the last occurrence of pat, if any. -/
def lastMatchEnd (pat l : List Char) : Option Nat :=
  (firstMatchIdx pat.reverse l.reverse).map (fun i => l.length - i)

/-- Newline-join of the character lines of a string. -/
def joinLinesChars : List (List Char) → List Char
  | [] => []
  | [l] => l
  | l :: ls => l ++ Char.ofNat 10 :: joinLinesChars ls

/-- Tail of the regex match: drop up to the end of the last occurrence of pat
on the matched line, then greedily drop colons and whitespace (the
[:\s]* part, which may cross line breaks). -/
def afterDocMatch (pat l : List Char) (ls : List (List Char)) : List Char :=
  let e := (lastMatchEnd pat l).getD 0
  let rest := l.drop e ++ (match ls with
    | [] => []
    | l2 :: ls2 => Char.ofNat 10 :: joinLinesChars (l2 :: ls2))
  rest.dropWhile (fun c => c = ':' || jsIsSpace c)

/-- Walk the lines, keeping everything before the first line that contains
pat, and applying the match removal on that line. -/
def stripDocGo (pat : List Char) : List (List Char) → List Char
  | [] => []
  | [l] => if containsAux pat l then afterDocMatch pat l [] else l
  | l :: l2 :: ls =>
      if containsAux pat l then afterDocMatch pat l (l2 :: ls)
      else l ++ Char.ofNat 10 :: stripDocGo pat (l2 :: ls)
termination_by structural l => l

/-- JS s.replace(/.*docstring[:\s]*\/, ''): the dot does not cross line
terminators, so the first match starts at the beginning of the first line
containing "docstring", the greedy prefix reaches the last such occurrence
on that line, and the trailing [:\s]* run is consumed greedily. -/
def jsStripToDocstring (s : String) : String :=
  String.mk (stripDocGo "docstring".data (splitOnChar (Char.ofNat 10) s.data))

/-
  Graph data model (src/types.ts) and the section builders of the
  StreamingResponseBuilder.  The summary timestamp (new Date()
  .toISOString() in the source) is threaded as an explicit parameter.
  The Relation fields named from and to in the source are from_ and
  to_ here (reserved words).
-/

/-- Entity record: name, entityType, free-text observations. -/
structure Entity where
  name : String
  entityType : String
  observations : List String
deriving Repr, DecidableEq

/-- Relation record: directed typed edge between entity names. -/
structure Relation where
  from_ : String
  to_ : String
  relationType : String
deriving Repr, DecidableEq

/-- JSON form of an entity as serialized in responses. -/
def entityToJson (e : Entity) : Json :=
  .obj [("name", .str e.name), ("entityType", .str e.entityType),
        ("observations", .arr (e.observations.map Json.str))]

/-- JSON form of a relation as serialized in responses. -/
def relationToJson (r : Relation) : Json :=
  .obj [("from", .str r.from_), ("to", .str r.to_),
        ("relationType", .str r.relationType)]

/-- The pair object used by the entities, relationships and raw modes. -/
def graphJson (entities : List Entity) (relations : List Relation) : Json :=
  .obj [("entities", .arr (entities.map entityToJson)),
        ("relations", .arr (relations.map relationToJson))]

/-- One step of the breakdown accumulation: insertion-ordered upsert,
matching JS object key creation order for the non-index keys used here. -/
def breakdownUpsert (acc : List (String × Nat)) (t : String) : List (String × Nat) :=
  if acc.any (fun p => p.1 == t) then
    acc.map (fun p => if p.1 == t then (p.1, p.2 + 1) else p)
  else acc ++ [(t, 1)]

/-- Count of entities per entityType, in first-seen order. -/
def buildBreakdown (entities : List Entity) : List (String × Nat) :=
  entities.foldl (fun acc e => breakdownUpsert acc e.entityType) []

/-- Insertion-ordered set add, modelling JS Set. -/
def dedupAppend (acc : List String) (m : String) : List String :=
  if acc.contains m then acc else acc ++ [m]

/-- extractKeyModules: first path segment of each "Defined in:" observation
with at least one slash, deduplicated, first ten. -/
def extractKeyModules (entities : List Entity) : List String :=
  (entities.foldl (fun acc e =>
    match e.observations.find? (fun o => strContains o "Defined in:") with
    | some fileObs =>
        let filePath := jsTrim (replaceFirst fileObs "Defined in:" "")
        let parts := splitOnChar '/' filePath.data
        if 1 < parts.length then dedupAppend acc (String.mk (parts.headD [])) else acc
    | none => acc) []).take 10

/-- buildSummarySection: totals, per-type breakdown, key modules, timestamp. -/
def buildSummarySection (entities : List Entity) (relations : List Relation)
    (timestamp : String) : Json :=
  .obj [("totalEntities", .num entities.length),
        ("totalRelations", .num relations.length),
        ("breakdown", .obj ((buildBreakdown entities).map
            (fun p => (p.1, Json.num p.2)))),
        ("keyModules", .arr ((extractKeyModules entities).map Json.str)),
        ("timestamp", .str timestamp)]

/-- Per-path entity counter used by the structure section. -/
def structUpsert (acc : List (String × Nat)) (path : String) : List (String × Nat) :=
  if acc.any (fun p => p.1 == path) then
    acc.map (fun p => if p.1 == path then (p.1, p.2 + 1) else p)
  else acc ++ [(path, 1)]

/-- buildFileStructureSection: map from extracted file path to a record of
type "file" and the number of entities seen for that path. -/
def buildFileStructureSection (entities : List Entity) : Json :=
  let counts := entities.foldl (fun acc e =>
    match e.observations.find? (fun o => strContains o "Defined in:") with
    | some fileObs => structUpsert acc (jsTrim (replaceFirst fileObs "Defined in:" ""))
    | none => acc) []
  .obj (counts.map (fun p =>
    (p.1, Json.obj [("type", Json.str "file"), ("entities", Json.num p.2)])))

/-- Shared docstring extraction: first observation containing "docstring" or
"Description", with the regex prefix removal, trim, and a 200 character cap. -/
def docstringValue (obs : List String) : Option String :=
  match obs.find? (fun o => strContains o "docstring" || strContains o "Description") with
  | some docObs => some (strTake (jsTrim (jsStripToDocstring docObs)) 200)
  | none => none

/-- line field value: parseInt of the text after "Line:"; a failed parse is
NaN, which serializes as null. -/
def lineFieldValue (obs : List String) : Json :=
  match obs.find? (fun o => strContains o "Line:") with
  | some lineObs =>
      match jsParseInt (jsTrim (replaceFirst lineObs "Line:" "")) with
      | some n => Json.num n
      | none => Json.null
  | none => Json.num 0

/-- file field value: text after "Defined in:", trimmed. -/
def fileFieldValue (obs : List String) : String :=
  match obs.find? (fun o => strContains o "Defined in:") with
  | some fileObs => jsTrim (replaceFirst fileObs "Defined in:" "")
  | none => ""

/-- One class item of the API surface (methods and inherits lists are the
literal empty arrays of this source version). -/
def apiClassJson (cls : Entity) : Json :=
  .obj ([("name", Json.str cls.name),
         ("file", Json.str (fileFieldValue cls.observations)),
         ("line", lineFieldValue cls.observations)] ++
        (match docstringValue cls.observations with
         | some d => [("docstring", Json.str d)]
         | none => []) ++
        [("methods", Json.arr []), ("inherits", Json.arr [])])

/-- One function item of the API surface. -/
def apiFunctionJson (fn : Entity) : Json :=
  .obj ([("name", Json.str fn.name),
         ("file", Json.str (fileFieldValue fn.observations)),
         ("line", lineFieldValue fn.observations)] ++
        (match fn.observations.find? (fun o => strContains o "Signature:" || strContains o "(") with
         | some sigObs => [("signature", Json.str (strTake (jsTrim sigObs) 100))]
         | none => []) ++
        (match docstringValue fn.observations with
         | some d => [("docstring", Json.str d)]
         | none => []))

/-- Qualifying class entities: entityType "class", name not starting with
an underscore. -/
def classQualifies (e : Entity) : Bool :=
  e.entityType == "class" && !(strStartsWith e.name "_")

/-- Qualifying function entities: entityType "function" or "method", name
not starting with an underscore. -/
def functionQualifies (e : Entity) : Bool :=
  (e.entityType == "function" || e.entityType == "method") && !(strStartsWith e.name "_")

/-- buildApiSurfaceSection: filter, cap at limit in original order, map to
item records.  No priority scoring is applied in this builder. -/
def buildApiSurfaceSection (entities : List Entity) (relations : List Relation)
    (limit : Nat) : Json :=
  let classes := ((entities.filter classQualifies).take limit).map apiClassJson
  let functions := ((entities.filter functionQualifies).take limit).map apiFunctionJson
  .obj [("classes", Json.arr classes), ("functions", Json.arr functions)]

/-- buildDependenciesSection: partition of imports relations into external
names and internal path-like edges, each capped at 20. -/
def buildDependenciesSection (entities : List Entity) (relations : List Relation) : Json :=
  let importRelations := relations.filter (fun r => r.relationType == "imports")
  let external := (importRelations.foldl (fun acc r =>
      if !(strContains r.to_ "/") && !(strContains r.to_ ".py") then dedupAppend acc r.to_
      else acc) []).take 20
  let internal := ((importRelations.filter
      (fun r => strContains r.to_ "/" || strContains r.to_ ".py")).map
      (fun r => Json.obj [("from", Json.str r.from_), ("to", Json.str r.to_)])).take 20
  .obj [("external", Json.arr (external.map Json.str)), ("internal", Json.arr internal)]

/-- buildRelationsSection: inheritance edges plus the first 30 usage edges. -/
def buildRelationsSection (relations : List Relation) : Json :=
  let inheritance := (relations.filter (fun r => r.relationType == "inherits")).map
      (fun r => Json.obj [("from", Json.str r.from_), ("to", Json.str r.to_)])
  let keyUsages := ((relations.filter (fun r =>
      r.relationType == "calls" || r.relationType == "uses" ||
      r.relationType == "implements")).take 30).map
      (fun r => Json.obj [("from", Json.str r.from_), ("to", Json.str r.to_),
                          ("type", Json.str r.relationType)])
  .obj [("inheritance", Json.arr inheritance), ("keyUsages", Json.arr keyUsages)]

/-
  ResponseAssembler: the four mode builders and the top-level
  buildStreamingResponse with its catch-all error path.
-/

/-- Response metadata record. -/
structure ResponseMeta where
  tokenCount : Int
  tokenLimit : Int
  truncated : Bool
  truncationReason : Option String
  sectionsIncluded : List String
deriving Repr

/-- The response value returned by every mode. -/
structure StreamingGraphResponse where
  content : Json
  meta : ResponseMeta
deriving Repr

/-- Options tuple of the scroll request. -/
structure ScrollOptions where
  entityTypes : Option (List String) := none
  limit : Option Nat := none
  mode : Option String := none
deriving Repr

/-- JS truthiness of a value, used by the if (truncated.content) guards. -/
def jsTruthy : Json → Bool
  | .null => false
  | .bool b => b
  | .num n => decide (n ≠ 0)
  | .str s => !s.isEmpty
  | .arr _ => true
  | .obj _ => true

/-- Outcome of the mandatory summary section of smart mode. -/
structure SummaryOutcome where
  content : Json
  budget : TokenBudget
  entry : String
  truncated : Bool

/-- Summary handling: include when it fits, otherwise force truncation and
include the result unconditionally. -/
def summaryStep (summary : Json) (budget : TokenBudget) : SummaryOutcome :=
  if fitsInBudget budget summary then
    { content := summary,
      budget := consumeTokens budget (estimateTokensWithFormatting summary),
      entry := "summary", truncated := false }
  else
    let tr := truncateToFit summary budget
    { content := tr.1,
      budget := consumeTokens budget (estimateTokensWithFormatting tr.1),
      entry := "summary (truncated)", truncated := true }

/-- Outcome of one optional smart-mode section. -/
structure SectionOutcome where
  content : Option Json
  budget : TokenBudget
  entries : List String
  truncated : Bool

/-- Optional section handling shared by the structure, apiSurface and
dependencies sections: a remaining-budget threshold guard, then include,
truncate-and-include when the truncated content is truthy, or skip. -/
def optionalSectionStep (sectionName : String) (threshold : Int) (sec : Json)
    (budget : TokenBudget) : SectionOutcome :=
  if threshold < budget.remaining then
    if fitsInBudget budget sec then
      { content := some sec,
        budget := consumeTokens budget (estimateTokensWithFormatting sec),
        entries := [sectionName], truncated := false }
    else
      let tr := truncateToFit sec budget
      if jsTruthy tr.1 then
        { content := some tr.1,
          budget := consumeTokens budget (estimateTokensWithFormatting tr.1),
          entries := [sectionName ++ " (truncated)"], truncated := true }
      else { content := none, budget := budget, entries := [], truncated := false }
  else { content := none, budget := budget, entries := [], truncated := false }

/-- Outcome of the final relations section, which is never truncated: it is
included whole or dropped with a reason. -/
structure RelationsOutcome where
  content : Option Json
  budget : TokenBudget
  entries : List String
  truncated : Bool
  reason : Option String

/-- Relations section handling of smart mode. -/
def relationsStep (sec : Json) (budget : TokenBudget) : RelationsOutcome :=
  if (200 : Int) < budget.remaining then
    if fitsInBudget budget sec then
      { content := some sec,
        budget := consumeTokens budget (estimateTokensWithFormatting sec),
        entries := ["relations"], truncated := false, reason := none }
    else
      { content := none, budget := budget, entries := [], truncated := true,
        reason := some "Relations section excluded due to token limit" }
  else
    { content := none, budget := budget, entries := [], truncated := true,
      reason := some "Relations section excluded due to token limit" }

/-- Optional object entry. -/
def optEntry (k : String) (v : Option Json) : List (String × Json) :=
  match v with
  | some j => [(k, j)]
  | none => []

/-- The smart graph content object, fields in assignment order. -/
def smartGraphJson (summary : Json) (structureSec apiSec depsSec relsSec : Option Json) :
    Json :=
  .obj ([("summary", summary)] ++ optEntry "structure" structureSec ++
        optEntry "apiSurface" apiSec ++ optEntry "dependencies" depsSec ++
        optEntry "relations" relsSec)

/-- buildSmartStreamingResponse: progressive section assembly in priority
order with per-section minimum reservations 1000, 500, 300 and 200. -/
def buildSmartStreamingResponse (entities : List Entity) (relations : List Relation)
    (limitPerType : Nat) (budget0 : TokenBudget) (sections0 : List String)
    (timestamp : String) : StreamingGraphResponse :=
  let s := summaryStep (buildSummarySection entities relations timestamp) budget0
  let st := optionalSectionStep "structure" 1000 (buildFileStructureSection entities)
      s.budget
  let api := optionalSectionStep "apiSurface" 500
      (buildApiSurfaceSection entities relations limitPerType) st.budget
  let deps := optionalSectionStep "dependencies" 300
      (buildDependenciesSection entities relations) api.budget
  let rels := relationsStep (buildRelationsSection relations) deps.budget
  { content := smartGraphJson s.content st.content api.content deps.content rels.content,
    meta := { tokenCount := rels.budget.used, tokenLimit := rels.budget.total,
              truncated := s.truncated || st.truncated || api.truncated ||
                deps.truncated || rels.truncated,
              truncationReason := rels.reason,
              sectionsIncluded := sections0 ++ [s.entry] ++ st.entries ++
                api.entries ++ deps.entries ++ rels.entries } }

/-- Progressive shrink loop of entities mode: cut to the floor(0.8 * n)
prefix until the response fits or the list is empty. -/
def shrinkEntitiesLoop (budget : TokenBudget) (l : List Entity) (truncated : Bool) :
    List Entity × Bool :=
  if l.isEmpty then (l, truncated)
  else if fitsInBudget budget (graphJson l []) then (l, truncated)
  else shrinkEntitiesLoop budget (l.take (4 * l.length / 5)) true
termination_by l.length
decreasing_by
  simp only [List.length_take]
  rename_i h _
  have hl : 0 < l.length := by
    cases l with
    | nil => simp at h
    | cons a as => simp
  omega

/-- buildEntitiesStreamingResponse: optional entityTypes filter, optional
limit cap, then whole inclusion or progressive shrinking. -/
def buildEntitiesStreamingResponse (entities : List Entity) (options : ScrollOptions)
    (budget : TokenBudget) : StreamingGraphResponse :=
  let filtered := match options.entityTypes with
    | some ts => if !ts.isEmpty then entities.filter (fun e => ts.contains e.entityType)
                 else entities
    | none => entities
  let capped := match options.limit with
    | some n => if n ≠ 0 then filtered.take n else filtered
    | none => filtered
  if fitsInBudget budget (graphJson capped []) then
    { content := graphJson capped [],
      meta := { tokenCount := estimateTokensWithFormatting (graphJson capped []),
                tokenLimit := budget.total, truncated := false, truncationReason := none,
                sectionsIncluded := ["entities"] } }
  else
    let r := shrinkEntitiesLoop budget capped false
    { content := graphJson r.1 [],
      meta := { tokenCount := estimateTokensWithFormatting (graphJson r.1 []),
                tokenLimit := budget.total, truncated := r.2,
                truncationReason := if r.2 then
                    some ("Reduced from " ++ toString capped.length ++ " to " ++
                      toString r.1.length ++ " entities")
                  else none,
                sectionsIncluded := ["entities"] } }

/-- Progressive shrink loop of relationships mode. -/
def shrinkRelationsLoop (budget : TokenBudget) (l : List Relation) (truncated : Bool) :
    List Relation × Bool :=
  if l.isEmpty then (l, truncated)
  else if fitsInBudget budget (graphJson [] l) then (l, truncated)
  else shrinkRelationsLoop budget (l.take (4 * l.length / 5)) true
termination_by l.length
decreasing_by
  simp only [List.length_take]
  rename_i h _
  have hl : 0 < l.length := by
    cases l with
    | nil => simp at h
    | cons a as => simp
  omega

/-- buildRelationshipsStreamingResponse: whole inclusion or progressive
shrinking of the relation list, entities always empty. -/
def buildRelationshipsStreamingResponse (relations : List Relation)
    (budget : TokenBudget) : StreamingGraphResponse :=
  if fitsInBudget budget (graphJson [] relations) then
    { content := graphJson [] relations,
      meta := { tokenCount := estimateTokensWithFormatting (graphJson [] relations),
                tokenLimit := budget.total, truncated := false, truncationReason := none,
                sectionsIncluded := ["relations"] } }
  else
    let r := shrinkRelationsLoop budget relations false
    { content := graphJson [] r.1,
      meta := { tokenCount := estimateTokensWithFormatting (graphJson [] r.1),
                tokenLimit := budget.total, truncated := r.2,
                truncationReason := if r.2 then
                    some ("Reduced from " ++ toString relations.length ++ " to " ++
                      toString r.1.length ++ " relations")
                  else none,
                sectionsIncluded := ["relations"] } }

/-- buildRawStreamingResponse: all or nothing. -/
def buildRawStreamingResponse (entities : List Entity) (relations : List Relation)
    (budget : TokenBudget) : StreamingGraphResponse :=
  if fitsInBudget budget (graphJson entities relations) then
    { content := graphJson entities relations,
      meta := { tokenCount := estimateTokensWithFormatting (graphJson entities relations),
                tokenLimit := budget.total, truncated := false, truncationReason := none,
                sectionsIncluded := ["entities", "relations"] } }
  else
    { content := graphJson [] [],
      meta := { tokenCount := 0, tokenLimit := budget.total, truncated := true,
                truncationReason := some "Raw response too large - use smart, entities, or relationships mode with limits",
                sectionsIncluded := [] } }

/-- The default token limit constant of the builder. -/
def DEFAULT_TOKEN_LIMIT : Nat := 25500

/-- Effective mode: options.mode or "smart"; the JS or-default also replaces
the falsy empty string. -/
def modeOf (options : ScrollOptions) : String :=
  match options.mode with
  | some m => if m = "" then "smart" else m
  | none => "smart"

/-- Effective per-type limit: options.limit or 50; the JS or-default also
replaces a falsy zero. -/
def limitOf (options : ScrollOptions) : Nat :=
  match options.limit with
  | some n => if n = 0 then 50 else n
  | none => 50

/-- The switch over modes; an unknown mode throws, modelled as Except.  The
error text is the JS string form of the thrown Error value. -/
def dispatchMode (entities : List Entity) (relations : List Relation)
    (options : ScrollOptions) (timestamp : String) :
    Except String StreamingGraphResponse :=
  let mode := modeOf options
  let budget := createBudget DEFAULT_TOKEN_LIMIT
  if mode = "smart" then
    .ok (buildSmartStreamingResponse entities relations (limitOf options) budget []
      timestamp)
  else if mode = "entities" then
    .ok (buildEntitiesStreamingResponse entities options budget)
  else if mode = "relationships" then
    .ok (buildRelationshipsStreamingResponse relations budget)
  else if mode = "raw" then
    .ok (buildRawStreamingResponse entities relations budget)
  else .error ("Error: Unknown mode: " ++ mode)

/-- buildStreamingResponse: dispatch on the mode with the top-level catch
returning the well-formed empty response. -/
def buildStreamingResponse (entities : List Entity) (relations : List Relation)
    (options : ScrollOptions) (timestamp : String) : StreamingGraphResponse :=
  match dispatchMode entities relations options timestamp with
  | .ok r => r
  | .error e =>
      { content := graphJson [] [],
        meta := { tokenCount := 0, tokenLimit := DEFAULT_TOKEN_LIMIT, truncated := true,
                  truncationReason := some ("Error building response: " ++ e),
                  sectionsIncluded := [] } }

/-
  Definitions used by the claim statements: field extraction on Json,
  the running-estimate sum of an array prefix, the ranking that section
  4.4.1 of the specification describes (clearly marked as modelled from
  the spec, for comparison against the code), and the concrete inputs
  of the counterexamples.
-/

/-- Sum of the formatted token estimates of a list of values. -/
def sumEstWF (l : List Json) : Nat := (l.map estimateTokensWithFormatting).sum

/-- First field with the given key of an object value. -/
def objField (j : Json) (k : String) : Option Json :=
  match j with
  | .obj es => (es.find? (fun p => p.1 == k)).map (fun p => p.2)
  | _ => none

/-- The name fields of the items of an optional array value. -/
def itemNames (j : Option Json) : List String :=
  match j with
  | some (.arr items) => items.filterMap (fun x =>
      match objField x "name" with
      | some (.str n) => some n
      | _ => none)
  | _ => []

/-- Names appearing in the classes list of an API surface value. -/
def apiSurfaceClassNames (api : Json) : List String :=
  itemNames (objField api "classes")

/-- Names appearing in the functions list of an API surface value. -/
def apiSurfaceFunctionNames (api : Json) : List String :=
  itemNames (objField api "functions")

/-- Modelled from the spec (4.4.1): the weighted priority score, +5 when the
name does not start with an underscore, +10 when any observation contains a
documentation marker, +8 for a conventional constructor name. -/
def specPriorityScore (e : Entity) : Nat :=
  (if strStartsWith e.name "_" then 0 else 5) +
  (if e.observations.any (fun o => strContains o "docstring" || strContains o "Description")
   then 10 else 0) +
  (if e.name == "__init__" || e.name == "__new__" then 8 else 0)

/-- Modelled from the spec (4.4.1): insertion step of a stable descending
sort, placing an entity after every earlier entity of score at least its
own. -/
def specInsertRanked (e : Entity) : List Entity → List Entity
  | [] => [e]
  | x :: xs =>
      if specPriorityScore e ≤ specPriorityScore x then x :: specInsertRanked e xs
      else e :: x :: xs

/-- Modelled from the spec (4.4.1): rank by the weighted score, descending,
stable on ties (a stable insertion sort). -/
def specRankEntities (entities : List Entity) : List Entity :=
  entities.foldl (fun acc e => specInsertRanked e acc) []

/-- A character escaping to itself under JSON string escaping. -/
def plainChar (c : Char) : Prop := escChar c = [c]

/-- Decidable guard: a string value all of whose characters escape to
themselves (non-string values pass trivially). -/
def strPlain : Json → Bool
  | .str s => s.data.all (fun ch => escChar ch == [ch])
  | _ => true

/-- Counterexample input of the ranking claim: an undocumented entity first,
a documented one second. -/
def entA : Entity := { name := "a", entityType := "function", observations := [] }

/-- See entA. -/
def entB : Entity :=
  { name := "b", entityType := "function", observations := ["docstring: good"] }

/-- The private entity of the spec example. -/
def entPrivate : Entity :=
  { name := "_private", entityType := "function", observations := [] }

/-- The documented public entity of the spec example. -/
def entPublic : Entity :=
  { name := "public", entityType := "function", observations := ["docstring: yes"] }

/-- A 40 character string item whose formatted estimate (11 tokens) exceeds
the one-token allotment of the truncateArray counterexample. -/
def bigItem : Json := Json.str "0123456789012345678901234567890123456789"

/-- 25 double-quote characters: every character doubles under JSON escaping. -/
def quotes25 : String := String.mk (List.replicate 25 quoteChar)

/-- Budget with 10 remaining tokens used by the idempotence counterexample. -/
def smallBudget : TokenBudget := { total := 10, used := 0, remaining := 10 }

/-- An entityType of 102000 characters; the summary breakdown object built
from it cannot be shrunk by truncateObject. -/
def bigType : String := String.mk (List.replicate 102000 'x')

/-- The single entity of the budget-overflow input. -/
def bigEntity : Entity := { name := "a", entityType := bigType, observations := [] }

/-- A fixed 24 character timestamp of the shape toISOString produces. -/
def ts0 : String := "2025-01-01T00:00:00.000Z"

/-
  Proofs.  Shared helper lemmas first, then one theorem per claim.
-/

/-- Folding consumeTokens preserves the ledger relation and the total. -/
theorem consumeTokens_foldl_inv (ts : List Int) (b : TokenBudget)
    (h : b.remaining = b.total - b.used) :
    (ts.foldl consumeTokens b).remaining =
      (ts.foldl consumeTokens b).total - (ts.foldl consumeTokens b).used ∧
    (ts.foldl consumeTokens b).total = b.total := by
  induction ts generalizing b with
  | nil => exact ⟨h, rfl⟩
  | cons t rest ih =>
      have h2 : (consumeTokens b t).remaining =
          (consumeTokens b t).total - (consumeTokens b t).used := by
        simp [consumeTokens]; omega
      simpa [List.foldl_cons] using ih (consumeTokens b t) h2

/-- C7: createBudget yields total = floor(totalLimit * 0.96) with used 0 and
remaining = total; consumeTokens adds the amount to used, subtracts it from
remaining and keeps total; every budget reachable from createBudget through
a sequence of consumeTokens satisfies remaining = total - used. -/
theorem budget_algebra (totalLimit : Nat) (b : TokenBudget) (t : Int) (ts : List Int) :
    (createBudget totalLimit).total = ((totalLimit * 96) / 100 : Nat) ∧
    (createBudget totalLimit).used = 0 ∧
    (createBudget totalLimit).remaining = (createBudget totalLimit).total ∧
    (consumeTokens b t).used = b.used + t ∧
    (consumeTokens b t).remaining = b.remaining - t ∧
    (consumeTokens b t).total = b.total ∧
    (ts.foldl consumeTokens (createBudget totalLimit)).total =
      (createBudget totalLimit).total ∧
    (ts.foldl consumeTokens (createBudget totalLimit)).remaining =
      (ts.foldl consumeTokens (createBudget totalLimit)).total -
        (ts.foldl consumeTokens (createBudget totalLimit)).used := by
  have hbase : (createBudget totalLimit).remaining =
      (createBudget totalLimit).total - (createBudget totalLimit).used := by
    simp [createBudget]
  have hinv := consumeTokens_foldl_inv ts (createBudget totalLimit) hbase
  refine ⟨?_, rfl, rfl, rfl, rfl, rfl, hinv.2, hinv.1⟩
  simp [createBudget]

/-- Appending items to a compact array body never shortens it. -/
theorem stringifyCItems_append_mono (l l' : List Json) :
    (stringifyCItems l).length ≤ (stringifyCItems (l ++ l')).length := by
  induction l with
  | nil => exact Nat.zero_le _
  | cons x xs ih =>
      cases xs with
      | nil =>
          cases l' with
          | nil => simp
          | cons y ys =>
              simp only [List.cons_append, List.nil_append, stringifyCItems,
                String.length_append]
              omega
      | cons y ys =>
          have h := ih
          simp only [List.cons_append] at h ⊢
          simp only [stringifyCItems, String.length_append]
          omega

/-- Appending fields to a compact object body never shortens it. -/
theorem stringifyCFields_append_mono (l l' : List (String × Json)) :
    (stringifyCFields l).length ≤ (stringifyCFields (l ++ l')).length := by
  induction l with
  | nil => exact Nat.zero_le _
  | cons x xs ih =>
      obtain ⟨k, v⟩ := x
      cases xs with
      | nil =>
          cases l' with
          | nil => simp
          | cons y ys =>
              obtain ⟨k2, v2⟩ := y
              simp only [List.cons_append, List.nil_append, stringifyCFields,
                String.length_append]
              omega
      | cons y ys =>
          obtain ⟨k2, v2⟩ := y
          have h := ih
          simp only [List.cons_append] at h ⊢
          simp only [stringifyCFields, String.length_append]
          omega

/-- C6: the size estimate is monotonic under adding content: string
concatenation, array extension and object-field extension never decrease
estimateTokens, whose value is ceil(length / 4) of the serialized form. -/
theorem estimateTokens_monotone (s t : String) (l l' : List Json)
    (es es' : List (String × Json)) :
    estimateTokens (.str s) ≤ estimateTokens (.str (s ++ t)) ∧
    estimateTokens (.arr l) ≤ estimateTokens (.arr (l ++ l')) ∧
    estimateTokens (.obj es) ≤ estimateTokens (.obj (es ++ es')) := by
  refine ⟨?_, ?_, ?_⟩
  · simp only [estimateTokens, String.length_append]
    exact Nat.div_le_div_right (by omega)
  · have harr : ∀ (m : List Json), 2 ≤ (stringifyC (.arr m)).length := by
      intro m
      cases m with
      | nil => decide
      | cons x xs =>
          have g : stringifyC (.arr (x :: xs)) = "[" ++ stringifyCItems (x :: xs) ++ "]" :=
            rfl
          rw [g, String.length_append, String.length_append]
          have h1 : ("[" : String).length = 1 := rfl
          have h2 : ("]" : String).length = 1 := rfl
          omega
    cases l with
    | nil =>
        have e0 : estimateTokens (.arr ([] : List Json)) = 1 := by decide
        have e2 : estimateTokens (.arr (([] : List Json) ++ l')) =
            ((stringifyC (.arr l')).length + 3) / 4 := rfl
        rw [e0, e2]
        have h := harr l'
        omega
    | cons x xs =>
        have e1 : estimateTokens (.arr (x :: xs)) =
            ((stringifyC (.arr (x :: xs))).length + 3) / 4 := rfl
        have e2 : estimateTokens (.arr ((x :: xs) ++ l')) =
            ((stringifyC (.arr ((x :: xs) ++ l'))).length + 3) / 4 := rfl
        have g1 : stringifyC (.arr (x :: xs)) = "[" ++ stringifyCItems (x :: xs) ++ "]" :=
          rfl
        have g2 : stringifyC (.arr ((x :: xs) ++ l')) =
            "[" ++ stringifyCItems ((x :: xs) ++ l') ++ "]" := rfl
        have hm := stringifyCItems_append_mono (x :: xs) l'
        rw [e1, e2, g1, g2]
        simp only [String.length_append]
        exact Nat.div_le_div_right (by omega)
  · have hobj : ∀ (m : List (String × Json)), 2 ≤ (stringifyC (.obj m)).length := by
      intro m
      cases m with
      | nil => decide
      | cons x xs =>
          obtain ⟨k, v⟩ := x
          have g : stringifyC (.obj ((k, v) :: xs)) =
              "\x7b" ++ stringifyCFields ((k, v) :: xs) ++ "\x7d" := rfl
          rw [g, String.length_append, String.length_append]
          have h1 : ("\x7b" : String).length = 1 := rfl
          have h2 : ("\x7d" : String).length = 1 := rfl
          omega
    cases es with
    | nil =>
        have e0 : estimateTokens (.obj ([] : List (String × Json))) = 1 := by decide
        have e2 : estimateTokens (.obj (([] : List (String × Json)) ++ es')) =
            ((stringifyC (.obj es')).length + 3) / 4 := rfl
        rw [e0, e2]
        have h := hobj es'
        omega
    | cons x xs =>
        obtain ⟨k, v⟩ := x
        have e1 : estimateTokens (.obj ((k, v) :: xs)) =
            ((stringifyC (.obj ((k, v) :: xs))).length + 3) / 4 := rfl
        have e2 : estimateTokens (.obj (((k, v) :: xs) ++ es')) =
            ((stringifyC (.obj (((k, v) :: xs) ++ es'))).length + 3) / 4 := rfl
        have g1 : stringifyC (.obj ((k, v) :: xs)) =
            "\x7b" ++ stringifyCFields ((k, v) :: xs) ++ "\x7d" := rfl
        have g2 : stringifyC (.obj (((k, v) :: xs) ++ es')) =
            "\x7b" ++ stringifyCFields (((k, v) :: xs) ++ es') ++ "\x7d" := rfl
        have hm := stringifyCFields_append_mono ((k, v) :: xs) es'
        rw [e1, e2, g1, g2]
        simp only [String.length_append]
        exact Nat.div_le_div_right (by omega)

/-- The summary step labels its section summary or summary (truncated). -/
theorem summaryStep_entry_cases (c : Json) (b : TokenBudget) :
    (summaryStep c b).entry = "summary" ∨
    (summaryStep c b).entry = "summary (truncated)" := by
  unfold summaryStep
  split
  · left; rfl
  · right; rfl

/-- C4: in smart mode, for every input and every budget, sectionsIncluded
contains a summary entry, either summary or summary (truncated): the summary
section is always attempted, via forced truncation when it does not fit. -/
theorem smart_sectionsIncluded_has_summary (entities : List Entity)
    (relations : List Relation) (limitPerType : Nat) (budget : TokenBudget)
    (sections0 : List String) (timestamp : String) :
    "summary" ∈ (buildSmartStreamingResponse entities relations limitPerType budget
        sections0 timestamp).meta.sectionsIncluded ∨
    "summary (truncated)" ∈ (buildSmartStreamingResponse entities relations limitPerType
        budget sections0 timestamp).meta.sectionsIncluded := by
  have h := summaryStep_entry_cases (buildSummarySection entities relations timestamp)
    budget
  unfold buildSmartStreamingResponse
  rcases h with h | h
  · left
    simp only [List.mem_append, List.mem_singleton]
    exact Or.inl (Or.inl (Or.inl (Or.inl (Or.inr h.symm))))
  · right
    simp only [List.mem_append, List.mem_singleton]
    exact Or.inl (Or.inl (Or.inl (Or.inl (Or.inr h.symm))))

/-- C9: raw mode returns the full pair untruncated exactly when its formatted
estimate fits the budget, and otherwise refuses with empty content, the
truncated flag, and the narrower-mode reason; it never partially truncates. -/
theorem raw_mode_full_or_refusal (entities : List Entity) (relations : List Relation)
    (budget : TokenBudget) :
    (fitsInBudget budget (graphJson entities relations) = true →
        (buildRawStreamingResponse entities relations budget).content =
          graphJson entities relations ∧
        (buildRawStreamingResponse entities relations budget).meta.truncated = false) ∧
    (fitsInBudget budget (graphJson entities relations) = false →
        (buildRawStreamingResponse entities relations budget).content = graphJson [] [] ∧
        (buildRawStreamingResponse entities relations budget).meta.truncated = true ∧
        (buildRawStreamingResponse entities relations budget).meta.truncationReason =
          some "Raw response too large - use smart, entities, or relationships mode with limits") := by
  constructor <;> intro h <;> simp [buildRawStreamingResponse, h]

/-- C8: an options.mode outside the enumerated set (after the or-default) is
thrown inside the switch and caught at the top level, which returns the
well-formed empty response with the truncated flag and a diagnostic reason
instead of propagating the exception. -/
theorem unknown_mode_caught_as_error_response (entities : List Entity)
    (relations : List Relation) (options : ScrollOptions) (timestamp : String)
    (m : String) (hm : options.mode = some m) (hne : m ≠ "")
    (hnotin : m ∉ (["smart", "entities", "relationships", "raw"] : List String)) :
    buildStreamingResponse entities relations options timestamp =
      { content := graphJson [] [],
        meta := { tokenCount := 0, tokenLimit := (DEFAULT_TOKEN_LIMIT : Nat),
                  truncated := true,
                  truncationReason :=
                    some ("Error building response: Error: Unknown mode: " ++ m),
                  sectionsIncluded := [] } } := by
  have h1 : modeOf options = m := by
    simp [modeOf, hm, hne]
  simp only [List.mem_cons, List.not_mem_nil, or_false, not_or] at hnotin
  obtain ⟨h2, h3, h4, h5⟩ := hnotin
  unfold buildStreamingResponse dispatchMode
  rw [h1]
  simp [h2, h3, h4, h5]
  rfl

/-- Witness for the unknown-mode theorem at mode bogus on empty data. -/
theorem unknown_mode_caught_witness :
    buildStreamingResponse [] [] { mode := some "bogus" } "" =
      { content := graphJson [] [],
        meta := { tokenCount := 0, tokenLimit := (DEFAULT_TOKEN_LIMIT : Nat),
                  truncated := true,
                  truncationReason :=
                    some ("Error building response: Error: Unknown mode: " ++ "bogus"),
                  sectionsIncluded := [] } } :=
  unknown_mode_caught_as_error_response [] [] { mode := some "bogus" } "" "bogus" rfl
    (by decide) (by decide)

/-- The kept items of truncAux form a prefix of the input. -/
theorem truncAux_prefix_eq (m : Rat) (l : List Json) (cnt : Nat) (st : Bool) :
    (truncAux m l cnt st).1 = l.take (truncAux m l cnt st).1.length := by
  induction l generalizing cnt st with
  | nil => simp [truncAux]
  | cons x xs ih =>
      simp only [truncAux]
      split
      · simp
      · simpa using congrArg (fun r => x :: r) (ih (cnt + estimateTokensWithFormatting x) true)

/-- When no item was pushed yet, truncAux keeps the head unconditionally. -/
theorem truncAux_ne_nil (m : Rat) (x : Json) (xs : List Json) (cnt : Nat) :
    (truncAux m (x :: xs) cnt false).1 ≠ [] := by
  simp [truncAux]

/-- The truncated flag reports exactly that a proper prefix was returned. -/
theorem truncAux_flag_iff (m : Rat) (l : List Json) (cnt : Nat) (st : Bool) :
    (truncAux m l cnt st).2 = true ↔ (truncAux m l cnt st).1 ≠ l := by
  induction l generalizing cnt st with
  | nil => simp [truncAux]
  | cons x xs ih =>
      simp only [truncAux]
      split
      · simp
      · simpa using ih (cnt + estimateTokensWithFormatting x) true

/-- When truncAux stops early, the very next item would have overflowed the
allotment. -/
theorem truncAux_stop (m : Rat) (l : List Json) (cnt : Nat) (st : Bool)
    (h : (truncAux m l cnt st).1.length < l.length) :
    m < ((cnt + sumEstWF (l.take (truncAux m l cnt st).1.length) +
      estimateTokensWithFormatting (l.getD (truncAux m l cnt st).1.length Json.null)
        : Nat) : Rat) := by
  induction l generalizing cnt st with
  | nil => simp [truncAux] at h
  | cons x xs ih =>
      simp only [truncAux] at h ⊢
      by_cases hc : m < ((cnt + estimateTokensWithFormatting x : Nat) : Rat) ∧ st = true
      · rw [if_pos hc] at h ⊢
        simpa [sumEstWF] using hc.1
      · rw [if_neg hc] at h ⊢
        simp only [List.length_cons, Nat.add_lt_add_iff_right] at h
        have := ih (cnt + estimateTokensWithFormatting x) true h
        simp only [List.length_cons, List.take_succ_cons, List.getD_cons_succ]
        have harr : cnt + sumEstWF (x :: xs.take
              (truncAux m xs (cnt + estimateTokensWithFormatting x) true).1.length) =
            cnt + estimateTokensWithFormatting x + sumEstWF (xs.take
              (truncAux m xs (cnt + estimateTokensWithFormatting x) true).1.length) := by
          simp [sumEstWF]
          omega
        rw [harr]
        exact this

/-- Every kept item other than an unconditionally pushed first one fit the
allotment when it was added. -/
theorem truncAux_keep (m : Rat) (l : List Json) (cnt : Nat) (st : Bool)
    (i : Nat) (hst : st = true ∨ 0 < i)
    (hi : i < (truncAux m l cnt st).1.length) :
    ((cnt + sumEstWF (l.take i) +
      estimateTokensWithFormatting (l.getD i Json.null) : Nat) : Rat) ≤ m := by
  induction l generalizing cnt st i with
  | nil => simp [truncAux] at hi
  | cons x xs ih =>
      simp only [truncAux] at hi ⊢
      by_cases hc : m < ((cnt + estimateTokensWithFormatting x : Nat) : Rat) ∧ st = true
      · rw [if_pos hc] at hi
        simp at hi
      · rw [if_neg hc] at hi
        cases i with
        | zero =>
            have hstt : st = true := by
              rcases hst with h | h
              · exact h
              · exact absurd h (by omega)
            have hle : ¬ m < ((cnt + estimateTokensWithFormatting x : Nat) : Rat) := by
              intro hlt
              exact hc ⟨hlt, hstt⟩
            simpa [sumEstWF] using not_lt.mp hle
        | succ j =>
            simp only [List.length_cons, Nat.add_lt_add_iff_right] at hi
            have := ih (cnt + estimateTokensWithFormatting x) true j (Or.inl rfl) hi
            simp only [List.take_succ_cons, List.getD_cons_succ]
            have harr : cnt + sumEstWF (x :: xs.take j) =
                cnt + estimateTokensWithFormatting x + sumEstWF (xs.take j) := by
              simp [sumEstWF]
              omega
            rw [harr]
            exact this

/-- C3 (amended): truncateArray keeps a greedy prefix in original order and
reports truncated exactly when items were dropped, dropping an item as soon
as adding it would overflow the allotment; but the first item of a nonempty
array is always kept, even when it alone exceeds the whole allotment, so the
empty array is returned only for empty input and then with truncated false. -/
theorem truncateArray_greedy_amended (a : List Json) (m : Rat) :
    ((truncateArray a m).1 = a.take (truncateArray a m).1.length) ∧
    ((truncateArray a m).1 = [] ↔ a = []) ∧
    ((truncateArray a m).2 = true ↔ (truncateArray a m).1 ≠ a) ∧
    ((truncateArray a m).1.length < a.length →
      m < ((sumEstWF (a.take (truncateArray a m).1.length) +
        estimateTokensWithFormatting
          (a.getD (truncateArray a m).1.length Json.null) : Nat) : Rat)) ∧
    (∀ i, 0 < i → i < (truncateArray a m).1.length →
      ((sumEstWF (a.take i) +
        estimateTokensWithFormatting (a.getD i Json.null) : Nat) : Rat) ≤ m) := by
  cases a with
  | nil =>
      refine ⟨rfl, by simp [truncateArray], by simp [truncateArray], ?_, ?_⟩
      · intro h
        simp [truncateArray] at h
      · intro i h0 hi
        simp [truncateArray] at hi
  | cons x xs =>
      have hred : truncateArray (x :: xs) m = truncAux m (x :: xs) 0 false := by
        simp [truncateArray]
      rw [hred]
      refine ⟨truncAux_prefix_eq m (x :: xs) 0 false, ?_,
        truncAux_flag_iff m (x :: xs) 0 false, ?_, ?_⟩
      · simp [truncAux_ne_nil m x xs 0]
      · intro h
        simpa using truncAux_stop m (x :: xs) 0 false h
      · intro i h0 hi
        simpa using truncAux_keep m (x :: xs) 0 false i (Or.inr h0) hi

/-- C3 counterexample: a one-item array whose single item estimates at 11
tokens against a 1-token allotment is returned whole with truncated false,
refuting the claim that the empty array is returned (with truncated true)
exactly when the first item alone exceeds the whole allotment. -/
theorem truncateArray_first_item_kept_counterexample :
    truncateArray [bigItem] 1 = ([bigItem], false) ∧
    (1 : Rat) < ((estimateTokensWithFormatting bigItem : Nat) : Rat) := by
  constructor
  · rfl
  · have h : estimateTokensWithFormatting bigItem = 11 := rfl
    rw [h]
    norm_num

/-- The entities shrink loop stops only on an empty or fitting list, and its
result is a prefix of the input. -/
theorem shrinkEntitiesLoop_spec (budget : TokenBudget) (l : List Entity) (t : Bool) :
    ((shrinkEntitiesLoop budget l t).1 = [] ∨
      fitsInBudget budget (graphJson (shrinkEntitiesLoop budget l t).1 []) = true) ∧
    (∃ k, (shrinkEntitiesLoop budget l t).1 = l.take k) := by
  generalize hn : l.length = n
  induction n using Nat.strong_induction_on generalizing l t with
  | _ n ih =>
      unfold shrinkEntitiesLoop
      by_cases he : l.isEmpty
      · rw [if_pos he]
        refine ⟨Or.inl ?_, ⟨0, ?_⟩⟩ <;> simp_all [List.isEmpty_iff]
      · rw [if_neg he]
        by_cases hf : fitsInBudget budget (graphJson l []) = true
        · rw [if_pos hf]
          exact ⟨Or.inr hf, ⟨l.length, (List.take_length l).symm⟩⟩
        · rw [if_neg hf]
          have hlen : 0 < l.length := by
            cases l with
            | nil => simp at he
            | cons a as => simp
          have hless : (l.take (4 * l.length / 5)).length < n := by
            rw [List.length_take]
            omega
          obtain ⟨h1, h2⟩ := ih (l.take (4 * l.length / 5)).length hless
            (l.take (4 * l.length / 5)) true rfl
          refine ⟨h1, ?_⟩
          obtain ⟨k, hk⟩ := h2
          rw [hk, List.take_take]
          exact ⟨_, rfl⟩

/-- The relations shrink loop stops only on an empty or fitting list, and
its result is a prefix of the input. -/
theorem shrinkRelationsLoop_spec (budget : TokenBudget) (l : List Relation) (t : Bool) :
    ((shrinkRelationsLoop budget l t).1 = [] ∨
      fitsInBudget budget (graphJson [] (shrinkRelationsLoop budget l t).1) = true) ∧
    (∃ k, (shrinkRelationsLoop budget l t).1 = l.take k) := by
  generalize hn : l.length = n
  induction n using Nat.strong_induction_on generalizing l t with
  | _ n ih =>
      unfold shrinkRelationsLoop
      by_cases he : l.isEmpty
      · rw [if_pos he]
        refine ⟨Or.inl ?_, ⟨0, ?_⟩⟩ <;> simp_all [List.isEmpty_iff]
      · rw [if_neg he]
        by_cases hf : fitsInBudget budget (graphJson [] l) = true
        · rw [if_pos hf]
          exact ⟨Or.inr hf, ⟨l.length, (List.take_length l).symm⟩⟩
        · rw [if_neg hf]
          have hlen : 0 < l.length := by
            cases l with
            | nil => simp at he
            | cons a as => simp
          have hless : (l.take (4 * l.length / 5)).length < n := by
            rw [List.length_take]
            omega
          obtain ⟨h1, h2⟩ := ih (l.take (4 * l.length / 5)).length hless
            (l.take (4 * l.length / 5)) true rfl
          refine ⟨h1, ?_⟩
          obtain ⟨k, hk⟩ := h2
          rw [hk, List.take_take]
          exact ⟨_, rfl⟩

/-- C10: both progressive-shrink loops replace a nonempty non-fitting list
by its floor(0.8 n) prefix, which is strictly shorter, so they terminate
(they are total functions here) on either a fitting prefix or the empty
list. -/
theorem shrink_loops_reach_fitting_prefix (budget : TokenBudget) (es : List Entity)
    (rs : List Relation) (n : Nat) :
    (((shrinkEntitiesLoop budget es false).1 = [] ∨
        fitsInBudget budget (graphJson (shrinkEntitiesLoop budget es false).1 []) = true) ∧
      (∃ k, (shrinkEntitiesLoop budget es false).1 = es.take k)) ∧
    (((shrinkRelationsLoop budget rs false).1 = [] ∨
        fitsInBudget budget (graphJson [] (shrinkRelationsLoop budget rs false).1) = true) ∧
      (∃ k, (shrinkRelationsLoop budget rs false).1 = rs.take k)) ∧
    ((es.take (4 * es.length / 5)).length = 4 * es.length / 5) ∧
    (es ≠ [] → fitsInBudget budget (graphJson es []) = false →
      shrinkEntitiesLoop budget es false =
        shrinkEntitiesLoop budget (es.take (4 * es.length / 5)) true) ∧
    (1 ≤ n → 4 * n / 5 < n) := by
  refine ⟨shrinkEntitiesLoop_spec budget es false, shrinkRelationsLoop_spec budget rs false,
    ?_, ?_, ?_⟩
  · rw [List.length_take]
    omega
  · intro hne hfit
    rw [shrinkEntitiesLoop]
    rw [if_neg (by simpa [List.isEmpty_iff] using hne), if_neg (by simp [hfit])]
  · intro h
    omega

/-- The name field of a class item is the entity name. -/
theorem objField_apiClassJson_name (e : Entity) :
    objField (apiClassJson e) "name" = some (.str e.name) := rfl

/-- The name field of a function item is the entity name. -/
theorem objField_apiFunctionJson_name (e : Entity) :
    objField (apiFunctionJson e) "name" = some (.str e.name) := rfl

/-- Extracting names from mapped class items recovers the entity names. -/
theorem itemNames_map_apiClassJson (l : List Entity) :
    itemNames (some (.arr (l.map apiClassJson))) = l.map Entity.name := by
  induction l with
  | nil => rfl
  | cons e le ih =>
      simp only [List.map_cons, itemNames, List.filterMap_cons,
        objField_apiClassJson_name e] at *
      rw [ih]

/-- Extracting names from mapped function items recovers the entity names. -/
theorem itemNames_map_apiFunctionJson (l : List Entity) :
    itemNames (some (.arr (l.map apiFunctionJson))) = l.map Entity.name := by
  induction l with
  | nil => rfl
  | cons e le ih =>
      simp only [List.map_cons, itemNames, List.filterMap_cons,
        objField_apiFunctionJson_name e] at *
      rw [ih]

/-- C2 (amended): the API surface lists contain the first limit qualifying
entities in original input order: underscore-prefixed names are excluded
before the cap and no weighted priority scoring is applied; the spec example
still holds because its underscore entity is filtered out entirely. -/
theorem apiSurface_filter_cap_in_order (entities : List Entity)
    (relations : List Relation) (limit : Nat) :
    apiSurfaceClassNames (buildApiSurfaceSection entities relations limit) =
      ((entities.filter classQualifies).take limit).map Entity.name ∧
    apiSurfaceFunctionNames (buildApiSurfaceSection entities relations limit) =
      ((entities.filter functionQualifies).take limit).map Entity.name ∧
    apiSurfaceFunctionNames (buildApiSurfaceSection [entPrivate, entPublic] [] 1) =
      ["public"] := by
  refine ⟨?_, ?_, by decide⟩
  · have h : apiSurfaceClassNames (buildApiSurfaceSection entities relations limit) =
        itemNames (some (.arr (((entities.filter classQualifies).take limit).map
          apiClassJson))) := rfl
    rw [h, itemNames_map_apiClassJson]
  · have h : apiSurfaceFunctionNames (buildApiSurfaceSection entities relations limit) =
        itemNames (some (.arr (((entities.filter functionQualifies).take limit).map
          apiFunctionJson))) := rfl
    rw [h, itemNames_map_apiFunctionJson]

/-- C2 counterexample: with an undocumented entity a before a documented
entity b and limit 1, the builder returns a, while the ranking of spec
section 4.4.1 (score 5 versus 15) would put b first; the output is not the
score-ranked top of the qualifying entities. -/
theorem apiSurface_not_score_ranked_counterexample :
    apiSurfaceFunctionNames (buildApiSurfaceSection [entA, entB] [] 1) = ["a"] ∧
    ((specRankEntities [entA, entB]).take 1).map Entity.name = ["b"] ∧
    specPriorityScore entA < specPriorityScore entB := by
  refine ⟨by decide, by decide, by decide⟩

/-- Rerunning truncAux on its own output consumes everything and reports no
truncation. -/
theorem truncAux_rerun (m : Rat) (l : List Json) (cnt : Nat) (st : Bool) :
    truncAux m (truncAux m l cnt st).1 cnt st = ((truncAux m l cnt st).1, false) := by
  induction l generalizing cnt st with
  | nil => rfl
  | cons x xs ih =>
      simp only [truncAux]
      split
      · rfl
      · simp only [truncAux]
        rw [if_neg (by assumption)]
        rw [ih (cnt + estimateTokensWithFormatting x) true]

/-- truncateArray applied to its own output returns it unchanged with the
truncated flag false. -/
theorem truncateArray_rerun (a : List Json) (m : Rat) :
    truncateArray (truncateArray a m).1 m = ((truncateArray a m).1, false) := by
  cases a with
  | nil => rfl
  | cons x xs =>
      have hred : truncateArray (x :: xs) m = truncAux m (x :: xs) 0 false := by
        simp [truncateArray]
      rw [hred]
      have hne := truncAux_ne_nil m x xs 0
      have : truncateArray (truncAux m (x :: xs) 0 false).1 m =
          truncAux m (truncAux m (x :: xs) 0 false).1 0 false := by
        unfold truncateArray
        rw [if_neg (by simpa [List.isEmpty_iff] using hne)]
      rw [this, truncAux_rerun]

/-- Rerunning truncateEntry on its own output keeps the entry unchanged. -/
theorem truncateEntry_rerun (b : TokenBudget) (e : String × Json) :
    (truncateEntry b (truncateEntry b e).1).1 = (truncateEntry b e).1 := by
  obtain ⟨k, v⟩ := e
  cases v with
  | arr a =>
      by_cases ht : (truncateArray a ((b.remaining : Rat) / 4)).2
      · have h1 : (truncateEntry b (k, Json.arr a)).1 =
            (k, Json.arr (truncateArray a ((b.remaining : Rat) / 4)).1) := by
          simp [truncateEntry, ht]
        rw [h1]
        simp [truncateEntry, truncateArray_rerun a ((b.remaining : Rat) / 4)]
      · have h1 : (truncateEntry b (k, Json.arr a)).1 = (k, Json.arr a) := by
          simp [truncateEntry, ht]
        rw [h1]
        simp [truncateEntry, ht]
  | str s =>
      by_cases hl : 500 < s.length
      · have hl2 : 500 < s.data.length := hl
        have h1 : (truncateEntry b (k, Json.str s)).1 =
            (k, Json.str (strTake s 500 ++ "...[truncated]")) := by
          simp [truncateEntry, hl]
        rw [h1]
        have hlen : (strTake s 500).length = 500 := by
          show (s.data.take 500).length = 500
          rw [List.length_take]
          omega
        have hlong : 500 < (strTake s 500 ++ "...[truncated]").length := by
          rw [String.length_append, hlen]
          have : ("...[truncated]" : String).length = 14 := rfl
          omega
        have htake : strTake (strTake s 500 ++ "...[truncated]") 500 = strTake s 500 := by
          have hdata : (strTake s 500 ++ ("...[truncated]" : String)).data =
              s.data.take 500 ++ ("...[truncated]" : String).data := rfl
          have h500 : (s.data.take 500).length = 500 := by
            rw [List.length_take]
            omega
          show String.mk (((strTake s 500 ++ ("...[truncated]" : String)).data).take 500) =
              String.mk (s.data.take 500)
          rw [hdata, List.take_append_eq_append_take, h500]
          simp [List.take_take]
        have hc : 500 < (strTake s 500).length + ("...[truncated]" : String).length := by
          rw [hlen]
          have h14 : ("...[truncated]" : String).length = 14 := rfl
          omega
        have h2 : (truncateEntry b (k, Json.str (strTake s 500 ++ "...[truncated]"))).1 =
            (k, Json.str (strTake (strTake s 500 ++ "...[truncated]") 500 ++
              "...[truncated]")) := by
          simp only [truncateEntry, String.length_append]
          rw [if_pos hc]
        rw [h2, htake]
      · have h1 : (truncateEntry b (k, Json.str s)).1 = (k, Json.str s) := by
          simp [truncateEntry, hl]
        rw [h1]
        simp [truncateEntry, hl]
  | null => rfl
  | bool v => rfl
  | num n => rfl
  | obj es => rfl

/-- truncateObject applied to an already processed entry list returns it
unchanged. -/
theorem truncateObject_rerun (es : List (String × Json)) (b : TokenBudget) :
    (truncateObject ((es.map (truncateEntry b)).map (fun p => p.1)) b).1 =
      Json.obj ((es.map (truncateEntry b)).map (fun p => p.1)) := by
  show Json.obj ((((es.map (truncateEntry b)).map (fun p => p.1)).map
      (truncateEntry b)).map (fun p => p.1)) = _
  congr 1
  simp only [List.map_map]
  apply List.map_congr_left
  intro e _
  exact truncateEntry_rerun b e

/-- A second truncateToFit pass leaves an already processed object value
unchanged. -/
theorem truncateToFit_obj_processed (es : List (String × Json)) (b : TokenBudget) :
    (truncateToFit (Json.obj ((es.map (truncateEntry b)).map (fun p => p.1))) b).1 =
      Json.obj ((es.map (truncateEntry b)).map (fun p => p.1)) := by
  by_cases hf : (estimateTokensWithFormatting
      (Json.obj ((es.map (truncateEntry b)).map (fun p => p.1))) : Int) ≤ b.remaining
  · unfold truncateToFit
    rw [if_pos hf]
  · unfold truncateToFit
    rw [if_neg hf]
    exact truncateObject_rerun es b

/-- truncateToFit keeps null unchanged. -/
theorem truncateToFit_null (b : TokenBudget) :
    (truncateToFit Json.null b).1 = Json.null := by
  unfold truncateToFit
  split
  · rfl
  · rfl

/-- Plainly escaping character lists pass through the escape unchanged. -/
theorem flatMap_escChar_plain (l : List Char) (h : ∀ c ∈ l, plainChar c) :
    l.flatMap escChar = l := by
  induction l with
  | nil => rfl
  | cons c cs ih =>
      have hc : escChar c = [c] := h c (by simp)
      simp only [List.flatMap_cons]
      rw [hc, ih (fun d hd => h d (by simp [hd]))]
      rfl

/-- Plainly escaping characters pass through escapeJson unchanged. -/
theorem escapeJson_plain (s : String) (h : ∀ c ∈ s.data, plainChar c) :
    escapeJson s = s := by
  show String.mk (s.data.flatMap escChar) = s
  rw [flatMap_escChar_plain s.data h]

/-- When the formatted estimate of a plain string exceeds the remaining
budget, getMaxContentSize does not reach past the string. -/
theorem getMaxContentSize_le_length (rem : Int) (L : Nat)
    (h : rem < (((L + 5) / 4 : Nat) : Int)) :
    (Int.fdiv (16 * rem) 5).toNat ≤ L := by
  have h5 : 5 * Int.fdiv (16 * rem) 5 ≤ 16 * rem := by
    have hm := Int.fmod_add_fdiv (16 * rem) 5
    have hp : 0 ≤ Int.fmod (16 * rem) 5 := Int.fmod_nonneg' _ (by norm_num)
    omega
  have hq : 4 * ((L + 5) / 4) ≤ L + 5 := by omega
  omega

/-- C5 (amended): applying truncateToFit twice with the same budget yields
the same content as applying it once, and never errors, provided a top-level
string contains only characters that escape to themselves; a top-level
string with JSON-escaped characters (quotes, backslashes, control
characters) can shrink further on the second pass because escaping inflates
its estimate beyond the character allowance. -/
theorem truncateToFit_idempotent_amended (c : Json) (b : TokenBudget)
    (hplain : strPlain c = true) :
    (truncateToFit (truncateToFit c b).1 b).1 = (truncateToFit c b).1 := by
  by_cases hfit : (estimateTokensWithFormatting c : Int) ≤ b.remaining
  · have h1 : truncateToFit c b = (c, false) := by
      unfold truncateToFit
      rw [if_pos hfit]
    rw [h1]
    unfold truncateToFit
    rw [if_pos hfit]
  · cases c with
    | obj es =>
        have h1 : (truncateToFit (Json.obj es) b).1 =
            Json.obj ((es.map (truncateEntry b)).map (fun p => p.1)) := by
          unfold truncateToFit
          rw [if_neg hfit]
          rfl
        rw [h1]
        exact truncateToFit_obj_processed es b
    | arr xs =>
        have h1 : (truncateToFit (Json.arr xs) b).1 =
            Json.obj (((arrayEntries xs).map (truncateEntry b)).map (fun p => p.1)) := by
          unfold truncateToFit
          rw [if_neg hfit]
          rfl
        rw [h1]
        exact truncateToFit_obj_processed (arrayEntries xs) b
    | null =>
        have h1 : (truncateToFit Json.null b).1 = Json.null := truncateToFit_null b
        rw [h1]
        exact truncateToFit_null b
    | bool v =>
        have h1 : (truncateToFit (Json.bool v) b).1 = Json.null := by
          unfold truncateToFit
          rw [if_neg hfit]
        rw [h1]
        exact truncateToFit_null b
    | num n =>
        have h1 : (truncateToFit (Json.num n) b).1 = Json.null := by
          unfold truncateToFit
          rw [if_neg hfit]
        rw [h1]
        exact truncateToFit_null b
    | str s =>
        have hchars : ∀ ch ∈ s.data, plainChar ch := by
          intro ch hch
          have := hplain
          simp only [strPlain, List.all_eq_true] at this
          have h2 := this ch hch
          simpa [plainChar] using h2
        have hesc : escapeJson s = s := escapeJson_plain s hchars
        have hest : estimateTokensWithFormatting (Json.str s) = (s.length + 5) / 4 := by
          unfold estimateTokensWithFormatting
          have hq : stringify2 0 (Json.str s) = quoteJson s := rfl
          rw [hq]
          unfold quoteJson
          rw [hesc]
          rw [String.length_append, String.length_append]
          have hone : (String.mk [quoteChar]).length = 1 := rfl
          rw [hone]
          congr 1
          omega
        have hrem : b.remaining < (((s.length + 5) / 4 : Nat) : Int) := by
          rw [hest] at hfit
          omega
        have hM : (getMaxContentSize b).toNat ≤ s.length :=
          getMaxContentSize_le_length b.remaining s.length hrem
        have h1 : (truncateToFit (Json.str s) b).1 =
            Json.str (jsSubstring0 s (getMaxContentSize b) ++ "...[truncated]") := by
          unfold truncateToFit
          rw [if_neg hfit]
        rw [h1]
        by_cases hf2 : (estimateTokensWithFormatting
            (Json.str (jsSubstring0 s (getMaxContentSize b) ++ "...[truncated]")) : Int) ≤
              b.remaining
        · unfold truncateToFit
          rw [if_pos hf2]
        · unfold truncateToFit
          rw [if_neg hf2]
          have htake : jsSubstring0 (jsSubstring0 s (getMaxContentSize b) ++
              "...[truncated]") (getMaxContentSize b) =
                jsSubstring0 s (getMaxContentSize b) := by
            have hdata : (jsSubstring0 s (getMaxContentSize b) ++
                ("...[truncated]" : String)).data =
                  s.data.take (getMaxContentSize b).toNat ++
                    ("...[truncated]" : String).data := rfl
            have hlen : (s.data.take (getMaxContentSize b).toNat).length =
                (getMaxContentSize b).toNat := by
              rw [List.length_take]
              have : s.data.length = s.length := rfl
              omega
            show String.mk (((jsSubstring0 s (getMaxContentSize b) ++
                ("...[truncated]" : String)).data).take (getMaxContentSize b).toNat) =
                String.mk (s.data.take (getMaxContentSize b).toNat)
            rw [hdata, List.take_append_eq_append_take, hlen]
            simp [List.take_take]
          show Json.str (jsSubstring0 (jsSubstring0 s (getMaxContentSize b) ++
              "...[truncated]") (getMaxContentSize b) ++ "...[truncated]") =
            Json.str (jsSubstring0 s (getMaxContentSize b) ++ "...[truncated]")
          rw [htake]

/-- C5 counterexample: a 25 quote-character string against a 10 token
budget truncates to a 39 character marked string whose escaped estimate
still exceeds the budget, so the second application cuts into the marker
and appends it again, changing the content. -/
theorem truncateToFit_not_idempotent_counterexample :
    (truncateToFit (truncateToFit (Json.str quotes25) smallBudget).1 smallBudget).1 ≠
      (truncateToFit (Json.str quotes25) smallBudget).1 := by
  intro h
  have hlen := congrArg (fun j => (stringify2 0 j).length) h
  exact absurd hlen (by decide)

/-- Witness for the amended idempotence theorem on an escape-free 40
character string against the 10 token budget. -/
theorem truncateToFit_idempotent_witness :
    strPlain (Json.str "0123456789012345678901234567890123456789") = true ∧
    (truncateToFit (truncateToFit
        (Json.str "0123456789012345678901234567890123456789") smallBudget).1
      smallBudget).1 =
      (truncateToFit (Json.str "0123456789012345678901234567890123456789")
        smallBudget).1 :=
  ⟨by decide, truncateToFit_idempotent_amended
    (Json.str "0123456789012345678901234567890123456789") smallBudget (by decide)⟩

/-- An optional section whose reservation threshold is not met is skipped
without touching the budget. -/
theorem optionalSectionStep_skip (nm : String) (th : Int) (sec : Json)
    (b : TokenBudget) (h : ¬ th < b.remaining) :
    optionalSectionStep nm th sec b =
      { content := none, budget := b, entries := [], truncated := false } := by
  unfold optionalSectionStep
  rw [if_neg h]

/-- The relations section is dropped with its reason when the reservation
threshold is not met. -/
theorem relationsStep_skip (sec : Json) (b : TokenBudget)
    (h : ¬ (200 : Int) < b.remaining) :
    relationsStep sec b =
      { content := none, budget := b, entries := [], truncated := true,
        reason := some "Relations section excluded due to token limit" } := by
  unfold relationsStep
  rw [if_neg h]

/-- The summary of the overflow input, written out. -/
theorem buildSummarySection_bigEntity :
    buildSummarySection [bigEntity] [] ts0 =
      Json.obj [("totalEntities", Json.num 1), ("totalRelations", Json.num 0),
        ("breakdown", Json.obj [(bigType, Json.num 1)]),
        ("keyModules", Json.arr []), ("timestamp", Json.str ts0)] := rfl

/-- The quoted escaped form of the long entityType has 102002 characters. -/
theorem quoteJson_bigType_length : (quoteJson bigType).length = 102002 := by
  unfold quoteJson
  rw [String.length_append, String.length_append]
  have h2 : escapeJson bigType = bigType := by
    apply escapeJson_plain
    intro c hc
    have hx : c = 'x' := List.eq_of_mem_replicate hc
    rw [hx]
    exact (by decide : escChar 'x' = ['x'])
  rw [h2]
  have h1 : (String.mk [quoteChar]).length = 1 := rfl
  have h3 : bigType.length = 102000 := by
    show (List.replicate 102000 'x').length = 102000
    exact List.length_replicate 102000 'x'
  rw [h1, h3]

/-- The serialized summary of the overflow input has 102142 characters. -/
theorem bigEntity_summary_serialized_length :
    (stringify2 0 (Json.obj [("totalEntities", Json.num 1),
      ("totalRelations", Json.num 0),
      ("breakdown", Json.obj [(bigType, Json.num 1)]),
      ("keyModules", Json.arr []), ("timestamp", Json.str ts0)])).length = 102142 := by
  have e1 : stringify2 0 (Json.obj [("totalEntities", Json.num 1),
      ("totalRelations", Json.num 0),
      ("breakdown", Json.obj [(bigType, Json.num 1)]),
      ("keyModules", Json.arr []), ("timestamp", Json.str ts0)]) =
      "\x7b\n" ++ stringifyFields 1 [("totalEntities", Json.num 1),
        ("totalRelations", Json.num 0),
        ("breakdown", Json.obj [(bigType, Json.num 1)]),
        ("keyModules", Json.arr []), ("timestamp", Json.str ts0)] ++
        "\n" ++ indentStr 0 ++ "\x7d" := rfl
  have e2 : stringifyFields 1 [("totalEntities", Json.num 1),
      ("totalRelations", Json.num 0),
      ("breakdown", Json.obj [(bigType, Json.num 1)]),
      ("keyModules", Json.arr []), ("timestamp", Json.str ts0)] =
      indentStr 1 ++ quoteJson "totalEntities" ++ ": " ++ stringify2 1 (Json.num 1) ++
        ",\n" ++ (indentStr 1 ++ quoteJson "totalRelations" ++ ": " ++
          stringify2 1 (Json.num 0) ++ ",\n" ++
        (indentStr 1 ++ quoteJson "breakdown" ++ ": " ++
          stringify2 1 (Json.obj [(bigType, Json.num 1)]) ++ ",\n" ++
        (indentStr 1 ++ quoteJson "keyModules" ++ ": " ++ stringify2 1 (Json.arr []) ++
          ",\n" ++
        (indentStr 1 ++ quoteJson "timestamp" ++ ": " ++
          stringify2 1 (Json.str ts0))))) := rfl
  have e3 : stringify2 1 (Json.obj [(bigType, Json.num 1)]) =
      "\x7b\n" ++ (indentStr 2 ++ quoteJson bigType ++ ": " ++
        stringify2 2 (Json.num 1)) ++ "\n" ++ indentStr 1 ++ "\x7d" := rfl
  rw [e1, e2, e3]
  simp only [String.length_append, quoteJson_bigType_length]
  have l1 : ("\x7b\n" : String).length = 2 := rfl
  have l2 : (indentStr 0).length = 0 := rfl
  have l3 : (indentStr 1).length = 2 := rfl
  have l4 : (indentStr 2).length = 4 := rfl
  have l5 : (quoteJson "totalEntities").length = 15 := rfl
  have l6 : (quoteJson "totalRelations").length = 16 := rfl
  have l7 : (quoteJson "breakdown").length = 11 := rfl
  have l8 : (quoteJson "keyModules").length = 12 := rfl
  have l9 : (quoteJson "timestamp").length = 11 := rfl
  have l10 : (": " : String).length = 2 := rfl
  have l11 : (",\n" : String).length = 2 := rfl
  have l12 : ("\n" : String).length = 1 := rfl
  have l13 : ("\x7d" : String).length = 1 := rfl
  have l14 : (stringify2 1 (Json.num 1)).length = 1 := rfl
  have l15 : (stringify2 1 (Json.num 0)).length = 1 := rfl
  have l16 : (stringify2 2 (Json.num 1)).length = 1 := rfl
  have l17 : (stringify2 1 (Json.arr [])).length = 2 := rfl
  have l18 : (stringify2 1 (Json.str ts0)).length = 26 := rfl
  rw [l1, l2, l3, l4, l5, l6, l7, l8, l9, l10, l11, l12, l13, l14, l15, l16, l17, l18]

/-- Unfolding equation of the formatted estimate, kept symbolic so that
rewriting never asks the kernel to evaluate a large serialization. -/
theorem estimateTokensWithFormatting_eq (c : Json) :
    estimateTokensWithFormatting c = ((stringify2 0 c).length + 3) / 4 := rfl

/-- Unfolding equation of fitsInBudget. -/
theorem fitsInBudget_eq (b : TokenBudget) (c : Json) :
    fitsInBudget b c =
      decide ((estimateTokensWithFormatting c : Int) ≤ b.remaining) := rfl

/-- The summary of the overflow input estimates at 25536 tokens. -/
theorem bigEntity_summary_est :
    estimateTokensWithFormatting (buildSummarySection [bigEntity] [] ts0) = 25536 := by
  rw [estimateTokensWithFormatting_eq, buildSummarySection_bigEntity,
    bigEntity_summary_serialized_length]


/-- The overflow summary does not fit the fresh default budget. -/
theorem bigEntity_summary_not_fit :
    fitsInBudget (createBudget 25500) (buildSummarySection [bigEntity] [] ts0) = false := by
  rw [fitsInBudget_eq, bigEntity_summary_est]
  rfl

/-- A non-fitting object value goes to truncateObject. -/
theorem truncateToFit_obj_not_fit (es : List (String × Json)) (b : TokenBudget)
    (h : ¬ ((estimateTokensWithFormatting (Json.obj es) : Int) ≤ b.remaining)) :
    truncateToFit (Json.obj es) b = truncateObject es b := by
  unfold truncateToFit
  rw [if_neg h]

/-- Forced truncation of the overflow summary returns it unchanged. -/
theorem bigEntity_summary_truncate_noop :
    truncateToFit (buildSummarySection [bigEntity] [] ts0) (createBudget 25500) =
      (buildSummarySection [bigEntity] [] ts0, false) := by
  rw [buildSummarySection_bigEntity]
  rw [truncateToFit_obj_not_fit _ _ ?hneg]
  case hneg =>
    rw [show estimateTokensWithFormatting (Json.obj [("totalEntities", Json.num 1),
        ("totalRelations", Json.num 0),
        ("breakdown", Json.obj [(bigType, Json.num 1)]),
        ("keyModules", Json.arr []), ("timestamp", Json.str ts0)]) = 25536 from by
      rw [← buildSummarySection_bigEntity]
      exact bigEntity_summary_est]
    decide
  rfl

/-- Summary handling on a non-fitting summary: forced truncation path. -/
theorem summaryStep_not_fit (c : Json) (b : TokenBudget)
    (h : fitsInBudget b c = false) :
    summaryStep c b =
      { content := (truncateToFit c b).1,
        budget := consumeTokens b (estimateTokensWithFormatting (truncateToFit c b).1),
        entry := "summary (truncated)", truncated := true } := by
  unfold summaryStep
  rw [h]
  simp

/-- Evaluated summary step of the overflow input: the summary is consumed in
full, overdrawing the budget. -/
theorem bigEntity_summaryStep_eval :
    summaryStep (buildSummarySection [bigEntity] [] ts0) (createBudget 25500) =
      { content := buildSummarySection [bigEntity] [] ts0,
        budget := { total := 24480, used := 25536, remaining := -1056 },
        entry := "summary (truncated)", truncated := true } := by
  rw [summaryStep_not_fit _ _ bigEntity_summary_not_fit]
  rw [bigEntity_summary_truncate_noop]
  rw [show ((buildSummarySection [bigEntity] [] ts0, false).1) =
    buildSummarySection [bigEntity] [] ts0 from rfl]
  rw [bigEntity_summary_est]
  rfl


/-- Full evaluation of smart mode on the overflow input: the summary is
kept whole at 25536 tokens against the 24480 total, every later section is
skipped, and the reported tokenCount exceeds the reported tokenLimit. -/
theorem bigEntity_smart_eval :
    buildSmartStreamingResponse [bigEntity] [] 50 (createBudget 25500) [] ts0 =
      { content := Json.obj [("summary", Json.obj [("totalEntities", Json.num 1),
          ("totalRelations", Json.num 0),
          ("breakdown", Json.obj [(bigType, Json.num 1)]),
          ("keyModules", Json.arr []), ("timestamp", Json.str ts0)])],
        meta := { tokenCount := 25536, tokenLimit := 24480, truncated := true,
                  truncationReason :=
                    some "Relations section excluded due to token limit",
                  sectionsIncluded := ["summary (truncated)"] } } := by
  unfold buildSmartStreamingResponse
  rw [bigEntity_summaryStep_eval]
  have h1 := optionalSectionStep_skip "structure" 1000
    (buildFileStructureSection [bigEntity])
    { total := 24480, used := 25536, remaining := -1056 } (by decide)
  have h2 := optionalSectionStep_skip "apiSurface" 500
    (buildApiSurfaceSection [bigEntity] [] 50)
    { total := 24480, used := 25536, remaining := -1056 } (by decide)
  have h3 := optionalSectionStep_skip "dependencies" 300
    (buildDependenciesSection [bigEntity] [])
    { total := 24480, used := 25536, remaining := -1056 } (by decide)
  have h4 := relationsStep_skip (buildRelationsSection [])
    { total := 24480, used := 25536, remaining := -1056 } (by decide)
  simp only [h1, h2, h3, h4]
  rfl

/-- Dispatch on the overflow request reaches the smart builder. -/
theorem bigEntity_dispatch :
    buildStreamingResponse [bigEntity] [] { mode := some "smart" } ts0 =
      buildSmartStreamingResponse [bigEntity] [] 50 (createBudget 25500) [] ts0 := rfl

/-- C1: the budget invariant fails on the code: for the single entity with a
102000 character entityType in smart mode, the response reports
meta.tokenCount = 25536 while meta.tokenLimit = 24480, so
meta.tokenCount <= meta.tokenLimit does not hold; the summary section,
whose breakdown object truncateObject cannot shrink, is consumed in full
after forced truncation. -/
theorem smart_mode_tokenCount_exceeds_tokenLimit :
    (buildStreamingResponse [bigEntity] [] { mode := some "smart" } ts0).meta.tokenLimit <
      (buildStreamingResponse [bigEntity] [] { mode := some "smart" } ts0).meta.tokenCount ∧
    (buildStreamingResponse [bigEntity] [] { mode := some "smart" } ts0).meta.tokenCount =
      25536 ∧
    (buildStreamingResponse [bigEntity] [] { mode := some "smart" } ts0).meta.tokenLimit =
      24480 := by
  rw [bigEntity_dispatch, bigEntity_smart_eval]
  refine ⟨by norm_num, rfl, rfl⟩
